import Mathlib

/-!
Verification of the AutoWriter model-routing and text-chunking core.

The development shallowly embeds two source modules:
  * `novel_system/backend/services/vector_store.py` — `VectorStore.chunk_text`
  * `novel_system/backend/services/model_router.py` — the registry tables,
    `_unique`, `select_models`, `invoke_model` and `generate_text`

Python strings are modelled as `List Char`; Python integers as `Int`
(start indices in `chunk_text` can become negative); the Python `while`
loop of `chunk_text` is embedded with an explicit fuel counter so that
its (non-)termination can be stated.  Provider clients are abstracted
as an oracle `call : String → Except PyExc String` (model name to
generated text or raised exception), and each provider invocation is
recorded in a trace so that call-count properties can be stated.
-/

namespace AutoWriter

/-- Python slice `s[a:b]` (step 1) on a string modelled as `List Char`:
negative indices count from the end, and both indices are clamped to
`[0, len]`; an empty slice results when the normalised start is not
below the normalised stop. -/
def pySlice (s : List Char) (a b : Int) : List Char :=
  let n : Int := s.length
  let a2 : Int := if a < 0 then max (a + n) 0 else min a n
  let b2 : Int := if b < 0 then max (b + n) 0 else min b n
  if a2 < b2 then (s.drop a2.toNat).take (b2 - a2).toNat else []

/-- The `while start < text_len` loop of `VectorStore.chunk_text`, with an
explicit fuel counter.  One unfolding is one loop iteration:
`end = min(start + chunk_size, text_len)`; append `text[start:end]`;
`break` when `end == text_len`; otherwise `start = end - overlap`.
`none` means the fuel ran out before the loop finished. -/
def chunkTextLoop (chunk_size overlap : Int) : Nat → Int → List Char → Option (List (List Char))
  | 0, _, _ => none
  | fuel + 1, start, text =>
    if start < (text.length : Int) then
      let e : Int := min (start + chunk_size) (text.length : Int)
      let c := pySlice text start e
      if e = (text.length : Int) then some [c]
      else
        match chunkTextLoop chunk_size overlap fuel (e - overlap) text with
        | none => none
        | some cs => some (c :: cs)
    else some []

/-- `VectorStore.chunk_text(text, chunk_size=600, overlap=100)`:
`if not text: return []`, then the sliding-window loop.  The fuel
`text.length + 1` is sufficient whenever the Python loop terminates in
at most `text.length` iterations (in particular whenever
`overlap < chunk_size`, see `chunkTextLoop_eq_specWindows`); a `none`
result means the Python loop runs longer than that. -/
def chunk_text (text : List Char) (chunk_size : Int := 600) (overlap : Int := 100) :
    Option (List (List Char)) :=
  if text = [] then some []
  else chunkTextLoop chunk_size overlap (text.length + 1) 0 text

/-- The loop terminates on the given input: some amount of fuel lets it
finish. -/
def chunkTerminates (text : List Char) (chunk_size overlap : Int) : Prop :=
  text = [] ∨ ∃ fuel, (chunkTextLoop chunk_size overlap fuel 0 text).isSome

/-- Reference definition, following the words of the specification:
window `[start, start + chunk_size)`, then the next window starts at
`start + chunk_size - overlap`; the final window is clipped to the end
of the text and the iteration stops there.  (Fueled only to make the
recursion structural; `specWindows_fuel_irrelevant` shows any
sufficient fuel gives the same value.) -/
def specWindows (cs ov : Nat) : Nat → Nat → List Char → List (List Char)
  | 0, _, _ => []
  | fuel + 1, start, text =>
    let w := (text.drop start).take cs
    if start + cs < text.length then w :: specWindows cs ov fuel (start + (cs - ov)) text
    else [w]

/-- Reference chunking of a whole text, per the specification. -/
def specChunks (text : List Char) (cs ov : Nat) : List (List Char) :=
  if text = [] then [] else specWindows cs ov (text.length + 1) 0 text

/-- Reassembly of a window list: the first window, followed by every
later window stripped of its first `ov` characters. -/
def glue (ov : Nat) : List (List Char) → List Char
  | [] => []
  | w :: rest => w ++ (rest.map (fun x => x.drop ov)).flatten

/-- Adjacent windows share `ov` characters: the last `ov` characters of
each window are the first `ov` characters of the next. -/
def adjShare (ov : Nat) : List (List Char) → Prop
  | a :: b :: rest => a.drop (a.length - ov) = b.take ov ∧ adjShare ov (b :: rest)
  | _ => True

/-! ## Model router (`model_router.py`) -/

/-- `ModelSpec` dataclass.  Prices are rationals (`{"in": .., "out": ..}`
pairs). -/
structure ModelSpec where
  name : String
  provider : String
  tier : String
  roles : List String := []
  max_context : Option Nat := none
  price : Option (Rat × Rat) := none
deriving Repr, DecidableEq

/-- The `MODEL_REGISTRY` mapping, as an insertion-ordered association
list keyed by model name. -/
def MODEL_REGISTRY : List (String × ModelSpec) :=
  [("gpt-5.1",
    { name := "gpt-5.1", provider := "openai", tier := "strong",
      roles := ["default", "draft", "rewrite", "quality", "outline", "chapter"],
      max_context := some 196000, price := some (1.25, 10.0) }),
   ("gpt-5-mini",
    { name := "gpt-5-mini", provider := "openai", tier := "cheap",
      roles := ["short", "classify", "tag", "outline", "blurb"],
      max_context := some 128000, price := some (0.25, 2.0) }),
   ("gemini-3.0-pro",
    { name := "gemini-3.0-pro", provider := "gemini", tier := "strong",
      roles := ["analysis", "multimodal", "long"],
      max_context := some 2000000, price := some (2.0, 12.0) }),
   ("gemini-1.5-flash",
    { name := "gemini-1.5-flash", provider := "gemini", tier := "fast",
      roles := ["short", "classify", "outline"],
      max_context := some 1000000, price := none }),
   ("grok-4.1",
    { name := "grok-4.1", provider := "grok", tier := "strong",
      roles := ["creative", "dialogue", "style"],
      max_context := some 2000000, price := some (3.0, 15.0) }),
   ("grok-2-mini",
    { name := "grok-2-mini", provider := "grok", tier := "fast",
      roles := ["short", "chat"],
      max_context := some 512000, price := none })]

/-- `TASK_DEFAULTS`: task label to default preference order. -/
def TASK_DEFAULTS : List (String × List String) :=
  [("outline", ["gpt-5-mini", "gpt-5.1", "gemini-3.0-pro"]),
   ("short", ["gpt-5-mini", "gemini-1.5-flash", "gpt-5.1"]),
   ("draft", ["gpt-5-mini", "gpt-5.1", "gemini-3.0-pro"]),
   ("chapter", ["gpt-5.1", "gemini-3.0-pro"]),
   ("rewrite", ["gpt-5.1", "grok-4.1"]),
   ("polish", ["gpt-5.1", "grok-4.1"]),
   ("quality", ["gpt-5.1", "gemini-3.0-pro"]),
   ("world", ["gemini-3.0-pro", "gpt-5.1"]),
   ("lore", ["gemini-3.0-pro", "gpt-5.1"]),
   ("dialogue", ["grok-4.1", "gpt-5.1"]),
   ("emotional", ["grok-4.1", "gpt-5.1"]),
   ("chat", ["gpt-5-mini", "gpt-5.1", "grok-4.1"])]

/-- `STRATEGY_PRESETS`: strategy label to preference order. -/
def STRATEGY_PRESETS : List (String × List String) :=
  [("default", ["gpt-5-mini", "gpt-5.1"]),
   ("creative", ["grok-4.1", "gpt-5.1"]),
   ("grok", ["grok-4.1", "gpt-5.1"]),
   ("gemini", ["gemini-3.0-pro", "gpt-5.1", "gpt-5-mini"]),
   ("long_context", ["gemini-3.0-pro", "gpt-5.1"]),
   ("cheap", ["gpt-5-mini", "gemini-1.5-flash", "gpt-5.1"])]

/-- Python `dict.get(k, [])` on these tables. -/
def lookupD (tbl : List (String × List String)) (k : String) : List String :=
  (tbl.lookup k).getD []

/-- `item in MODEL_REGISTRY` (dict key membership). -/
def inRegistry (m : String) : Prop :=
  (MODEL_REGISTRY.lookup m).isSome

instance (m : String) : Decidable (inRegistry m) := by
  unfold inRegistry
  infer_instance

/-- The loop inside `_unique`: keep the first occurrence of each item
that is a registry key; `seen` accumulates processed keys. -/
def uniqueGo (seen : List String) : List String → List String
  | [] => []
  | item :: rest =>
    if item ∉ seen ∧ inRegistry item then item :: uniqueGo (item :: seen) rest
    else uniqueGo seen rest

/-- `_unique(seq)` from `model_router.py`. -/
def uniqueModels (seq : List String) : List String :=
  uniqueGo [] seq

/-- Python `strategy or "default"`: `None` and `""` both fall back to
`"default"`. -/
def strategyKey (strategy : Option String) : String :=
  if strategy.getD "" = "" then "default" else strategy.getD ""

/-- The `base` candidate list inside `select_models` (including the
short-task recompute). -/
def selectBase (task strategy : Option String) : List String :=
  let base := lookupD TASK_DEFAULTS (task.getD "") ++ lookupD STRATEGY_PRESETS (strategyKey strategy)
  if task = some "short" then
    lookupD TASK_DEFAULTS "short" ++ lookupD STRATEGY_PRESETS (strategyKey strategy)
  else base

/-- `select_models(task, strategy, preferred_models)`.  A truthy
`preferred_models` (present and non-empty) short-circuits to a registry
filter of it; otherwise the task/strategy base list is deduplicated,
falling back to the "default" preset when the result is empty. -/
def select_models (task strategy : Option String)
    (preferred_models : Option (List String)) : List String :=
  if preferred_models.getD [] ≠ [] then
    (preferred_models.getD []).filter (fun m => decide (inRegistry m))
  else
    let models := uniqueModels (selectBase task strategy)
    if models = [] then lookupD STRATEGY_PRESETS "default" else models

/-- Python exceptions the router raises or catches: `ModelUnavailable`
and any exception raised by a provider client (opaque, carried as its
`str(exc)` message). -/
inductive PyExc where
  | modelUnavailable (msg : String)
  | providerFailure (msg : String)
deriving Repr, DecidableEq

deriving instance DecidableEq for Except

/-- `str(exc)`. -/
def excMsg : PyExc → String
  | .modelUnavailable m => m
  | .providerFailure m => m

/-- The dictionary `invoke_model` returns on success. -/
structure InvokeResult where
  text : String
  model_used : String
  provider : String
  from_fallback : Bool
deriving Repr, DecidableEq

/-- A provider oracle: what the provider client for a model returns
(`.ok text`) or raises (`.error exc`) when invoked.  It abstracts the
`openai_client` / `gemini_client` / `xai_client` `generate_text` calls,
which the router treats identically. -/
def ProviderCall : Type := String → Except PyExc String

/-- `invoke_model(model_name, ...)`: unknown names raise
`ModelUnavailable`; a known name dispatches on the provider of its spec
and wraps the provider text in a result dict with `from_fallback=False`;
an unimplemented provider raises `ModelUnavailable`.  The second
component records the provider invocations made (the model names whose
client was actually called), for call-count properties. -/
def invoke_model (call : ProviderCall) (model_name : String) :
    Except PyExc InvokeResult × List String :=
  match MODEL_REGISTRY.lookup model_name with
  | none => (.error (.modelUnavailable ("Unknown model: " ++ model_name)), [])
  | some spec =>
    if spec.provider = "openai" ∨ spec.provider = "gemini" ∨ spec.provider = "grok" then
      match call spec.name with
      | .ok text =>
        (.ok { text := text, model_used := spec.name, provider := spec.provider,
               from_fallback := false }, [spec.name])
      | .error e => (.error e, [spec.name])
    else
      (.error (.modelUnavailable
        ("Provider \x27" ++ spec.provider ++ "\x27 not implemented yet for model \x27"
          ++ spec.name ++ "\x27")), [])

/-- One slot of the compare-mode result list (`return_meta=True` shape):
either a result dict or an `{"error": .., "model_used": ..}` entry. -/
inductive CompareEntry where
  | ok (r : InvokeResult)
  | err (error : String) (model_used : String)
deriving Repr, DecidableEq

/-- The `for m in compare_models` loop of `generate_text`: attempt each
model; on failure, when fallback is allowed and the failed model is not
"gpt-5.1", attempt "gpt-5.1" once and mark a success `from_fallback`;
otherwise (or when that retry fails) record an error entry.  Returns
the result list and the invocation trace. -/
def compareLoop (call : ProviderCall) (allow_fallback : Bool) :
    List String → List CompareEntry × List String
  | [] => ([], [])
  | m :: rest =>
    let r := invoke_model call m
    match r.1 with
    | .ok res =>
      let tail := compareLoop call allow_fallback rest
      (.ok res :: tail.1, r.2 ++ tail.2)
    | .error exc =>
      if allow_fallback ∧ m ≠ "gpt-5.1" then
        let fb := invoke_model call "gpt-5.1"
        match fb.1 with
        | .ok fbres =>
          let tail := compareLoop call allow_fallback rest
          (.ok { fbres with from_fallback := true } :: tail.1, r.2 ++ fb.2 ++ tail.2)
        | .error _ =>
          let tail := compareLoop call allow_fallback rest
          (.err (excMsg exc) m :: tail.1, r.2 ++ fb.2 ++ tail.2)
      else
        let tail := compareLoop call allow_fallback rest
        (.err (excMsg exc) m :: tail.1, r.2 ++ tail.2)

/-- The `for idx, m in enumerate(candidates)` loop of standard mode,
with `last_err` threaded through.  On failure: when `allow_fallback` is
false the loop breaks and re-raises; when it is true, the
`if m != "gpt-5.1" and "gpt-5.1" in candidates[idx+1:]: continue`
statement either continues explicitly or — the condition failing — falls
off the end of the `except` block, after which the `for` loop proceeds
to the next candidate anyway; both branches are kept to mirror the
source.  An exhausted list re-raises `last_err` when set, else raises
`ModelUnavailable`. -/
def standardLoop (call : ProviderCall) (allow_fallback : Bool) :
    List String → Option PyExc → Except PyExc InvokeResult × List String
  | [], last_err =>
    (match last_err with
     | some e => .error e
     | none => .error (.modelUnavailable "No model available to fulfill the request"), [])
  | m :: rest, _ =>
    let r := invoke_model call m
    match r.1 with
    | .ok res => (.ok res, r.2)
    | .error exc =>
      if !allow_fallback then (.error exc, r.2)
      else if m ≠ "gpt-5.1" ∧ "gpt-5.1" ∈ rest then
        let tail := standardLoop call allow_fallback rest (some exc)
        (tail.1, r.2 ++ tail.2)
      else
        let tail := standardLoop call allow_fallback rest (some exc)
        (tail.1, r.2 ++ tail.2)

/-- The candidate list of standard mode: `select_models`, with a truthy
explicit `model` argument prepended through `_unique`. -/
def genCandidates (task strategy : Option String)
    (preferred_models : Option (List String)) (model : Option String) : List String :=
  let candidates := select_models task strategy preferred_models
  if model.getD "" ≠ "" then uniqueModels (model.getD "" :: candidates) else candidates

/-- Result of `generate_text` (with `return_meta=True`): a single result
dict in standard mode, a list of per-model entries in compare mode. -/
inductive GenOutput where
  | single (r : InvokeResult)
  | compare (rs : List CompareEntry)
deriving Repr, DecidableEq

/-- `generate_text(...)`: a truthy `compare_models` selects compare mode
(which never raises); otherwise standard mode runs the candidate loop.
The second component is the trace of provider invocations. -/
def generate_text (call : ProviderCall) (task strategy : Option String)
    (preferred_models compare_models : Option (List String))
    (allow_fallback : Bool := true) (model : Option String := none) :
    Except PyExc GenOutput × List String :=
  if compare_models.getD [] ≠ [] then
    let res := compareLoop call allow_fallback (compare_models.getD [])
    (.ok (.compare res.1), res.2)
  else
    let res := standardLoop call allow_fallback
      (genCandidates task strategy preferred_models model) none
    (match res.1 with
     | .ok r => .ok (.single r)
     | .error e => .error e, res.2)

/-- The per-slot decision table of compare mode, as the specification
states it: a successful invocation yields its result; a failure yields
the once-retried "gpt-5.1" result marked `from_fallback` when fallback
is allowed and the failed model is not "gpt-5.1" and the retry
succeeds; otherwise an error entry carrying the message and the failed
model. -/
def slotSpec (call : ProviderCall) (afb : Bool) (m : String) (e : CompareEntry) : Prop :=
  match (invoke_model call m).1 with
  | .ok r => e = .ok r
  | .error exc =>
    if afb ∧ m ≠ "gpt-5.1" then
      match (invoke_model call "gpt-5.1").1 with
      | .ok fb => e = .ok { fb with from_fallback := true }
      | .error _ => e = .err (excMsg exc) m
    else e = .err (excMsg exc) m

/-- A provider oracle on which every model call raises. -/
def callAllFail : ProviderCall := fun _ => .error (.providerFailure "down")

/-- A provider oracle on which exactly "gpt-5-mini" raises. -/
def callFailMini : ProviderCall := fun m =>
  if m = "gpt-5-mini" then .error (.providerFailure "mini down")
  else .ok ("text from " ++ m)

/-! ## Proofs -/

lemma pySlice_nat (s : List Char) (a b : Nat) (hab : a ≤ b) (hb : b ≤ s.length) :
    pySlice s (a : Int) (b : Int) = (s.drop a).take (b - a) := by
  have ha' : ¬ ((a : Int) < 0) := by omega
  have hb' : ¬ ((b : Int) < 0) := by omega
  have hmina : min (a : Int) (s.length : Int) = (a : Int) := by omega
  have hminb : min (b : Int) (s.length : Int) = (b : Int) := by omega
  unfold pySlice
  simp only [if_neg ha', if_neg hb', hmina, hminb]
  by_cases hlt : (a : Int) < (b : Int)
  · rw [if_pos hlt]
    have h1 : ((a : Int)).toNat = a := by omega
    have h2 : ((b : Int) - (a : Int)).toNat = b - a := by omega
    rw [h1, h2]
  · rw [if_neg hlt]
    have : b - a = 0 := by omega
    rw [this, List.take_zero]

lemma specWindows_fuel_irrelevant (cs ov : Nat) (hov : ov < cs) (text : List Char) :
    ∀ f1 f2 s, text.length - s < f1 → text.length - s < f2 →
      specWindows cs ov f1 s text = specWindows cs ov f2 s text := by
  intro f1
  induction f1 with
  | zero => intro f2 s h1 _; omega
  | succ f ih =>
    intro f2 s h1 h2
    match f2, h2 with
    | g + 1, h2 =>
      simp only [specWindows]
      by_cases hc : s + cs < text.length
      · rw [if_pos hc, if_pos hc]
        rw [ih g (s + (cs - ov)) (by omega) (by omega)]
      · rw [if_neg hc, if_neg hc]

lemma chunkTextLoop_eq_specWindows (cs ov : Nat) (hcs : 0 < cs) (hov : ov < cs)
    (text : List Char) :
    ∀ fuel fuel2 s, s < text.length → text.length - s < fuel → text.length - s < fuel2 →
      chunkTextLoop (cs : Int) (ov : Int) fuel (s : Int) text
        = some (specWindows cs ov fuel2 s text) := by
  intro fuel
  induction fuel with
  | zero => intro f2 s _ h1 _; omega
  | succ f ih =>
    intro f2 s hs h1 h2
    match f2, h2 with
    | g + 1, h2 =>
      have hslt : (s : Int) < (text.length : Int) := by omega
      simp only [chunkTextLoop, specWindows, if_pos hslt]
      by_cases hc : s + cs < text.length
      · have hmin : min ((s : Int) + (cs : Int)) (text.length : Int) = ((s + cs : Nat) : Int) := by
          push_cast; omega
        have hne : ¬ (((s + cs : Nat) : Int) = (text.length : Int)) := by
          omega
        rw [if_pos hc, hmin, if_neg hne]
        have hcast : ((s + cs : Nat) : Int) - (ov : Int) = ((s + (cs - ov) : Nat) : Int) := by
          push_cast; omega
        rw [hcast, ih g (s + (cs - ov)) (by omega) (by omega) (by omega)]
        have hps : pySlice text (s : Int) ((s + cs : Nat) : Int)
            = (text.drop s).take cs := by
          rw [pySlice_nat text s (s + cs) (by omega) (by omega)]
          congr 1
          omega
        rw [hps]
      · have hmin : min ((s : Int) + (cs : Int)) (text.length : Int) = (text.length : Int) := by
          omega
        rw [if_neg hc, hmin, if_pos rfl]
        have hps : pySlice text (s : Int) ((text.length : Nat) : Int)
            = (text.drop s).take (text.length - s) := by
          exact pySlice_nat text s text.length (by omega) (by omega)
        rw [hps]
        have hlen : (text.drop s).length ≤ text.length - s := by
          simp [List.length_drop]
        rw [List.take_of_length_le hlen, List.take_of_length_le (by simp [List.length_drop]; omega)]

theorem chunk_text_eq_specChunks (text : List Char) (cs ov : Nat)
    (hcs : 0 < cs) (hov : ov < cs) :
    chunk_text text (cs : Int) (ov : Int) = some (specChunks text cs ov) := by
  unfold chunk_text specChunks
  by_cases h : text = []
  · rw [if_pos h, if_pos h]
  · rw [if_neg h, if_neg h]
    have hlen : 0 < text.length := List.length_pos.mpr h
    have := chunkTextLoop_eq_specWindows cs ov hcs hov text (text.length + 1)
      (text.length + 1) 0 hlen (by omega) (by omega)
    simpa using this

lemma specWindows_cons (cs ov f s : Nat) (text : List Char) :
    ∃ rest, specWindows cs ov (f + 1) s text = (text.drop s).take cs :: rest := by
  simp only [specWindows]
  by_cases hc : s + cs < text.length
  · exact ⟨_, by rw [if_pos hc]⟩
  · exact ⟨[], by rw [if_neg hc]⟩

lemma specWindows_glue (cs ov : Nat) (hcs : 0 < cs) (hov : ov < cs) (text : List Char) :
    ∀ f s, s < text.length → text.length - s < f →
      glue ov (specWindows cs ov f s text) = text.drop s := by
  intro f
  induction f with
  | zero => intro s _ h; omega
  | succ f ih =>
    intro s hs h
    simp only [specWindows]
    by_cases hc : s + cs < text.length
    · rw [if_pos hc]
      have hs' : s + (cs - ov) < text.length := by omega
      have hf' : 0 < f := by omega
      match f, hf' with
      | f' + 1, _ =>
        obtain ⟨rest, hrest⟩ := specWindows_cons cs ov f' (s + (cs - ov)) text
        have hglue := ih (s + (cs - ov)) hs' (by omega)
        rw [hrest] at hglue ⊢
        simp only [glue, List.map_cons, List.flatten_cons] at hglue ⊢
        have hwlen : ov ≤ ((text.drop (s + (cs - ov))).take cs).length := by
          simp only [List.length_take, List.length_drop]
          omega
        have hdrop := congrArg (List.drop ov) hglue
        rw [List.drop_append_eq_append_drop] at hdrop
        have hz : ov - ((text.drop (s + (cs - ov))).take cs).length = 0 := by omega
        rw [hz, List.drop_zero] at hdrop
        have hdd : (text.drop (s + (cs - ov))).drop ov = text.drop (s + cs) := by
          rw [List.drop_drop]
          congr 1
          omega
        rw [hdd] at hdrop
        rw [hdrop]
        have := List.take_append_drop cs (text.drop s)
        rw [List.drop_drop] at this
        exact this
    · rw [if_neg hc]
      simp only [glue, List.map_nil, List.flatten_nil, List.append_nil]
      exact List.take_of_length_le (by simp [List.length_drop]; omega)

lemma specWindows_adjShare (cs ov : Nat) (hcs : 0 < cs) (hov : ov < cs) (text : List Char) :
    ∀ f s, s < text.length → text.length - s < f →
      adjShare ov (specWindows cs ov f s text) := by
  intro f
  induction f with
  | zero => intro s _ h; omega
  | succ f ih =>
    intro s hs h
    simp only [specWindows]
    by_cases hc : s + cs < text.length
    · rw [if_pos hc]
      have hs' : s + (cs - ov) < text.length := by omega
      have hf' : 0 < f := by omega
      match f, hf' with
      | f' + 1, _ =>
        obtain ⟨rest, hrest⟩ := specWindows_cons cs ov f' (s + (cs - ov)) text
        have hadj := ih (s + (cs - ov)) hs' (by omega)
        rw [hrest] at hadj ⊢
        refine ⟨?_, hadj⟩
        have hwlen : ((text.drop s).take cs).length = cs := by
          simp only [List.length_take, List.length_drop]
          omega
        rw [hwlen, List.drop_take, List.drop_drop, List.take_take]
        congr 1
        omega
    · rw [if_neg hc]
      simp only [adjShare]

lemma chunkTextLoop_abc_none : ∀ fuel, chunkTextLoop 1 1 fuel 0 ('a' :: 'b' :: 'c' :: []) = none := by
  intro fuel
  induction fuel with
  | zero => rfl
  | succ f ih =>
    have h1 : ((0 : Int) < (('a' :: 'b' :: 'c' :: []) : List Char).length) := by decide
    simp only [chunkTextLoop]
    norm_num
    rw [ih]

/-- C3: the claim states `chunk_text` terminates for every text, every
`chunk_size > 0` and every `overlap ≥ 0`, including `overlap ≥ chunk_size`.
The code has no defensive bound: on text "abc" with `chunk_size = 1`,
`overlap = 1` the loop re-enters with `start = 0` forever — no amount of
fuel makes `chunkTextLoop` return, so the Python `while` loop never
exits.  This contradicts the specification's explicit requirement that
the operation must not loop infinitely. -/
theorem chunk_text_diverges_overlap_eq_chunk_size :
    (∀ fuel, chunkTextLoop 1 1 fuel 0 ('a' :: 'b' :: 'c' :: []) = none)
    ∧ ¬ chunkTerminates ('a' :: 'b' :: 'c' :: []) 1 1
    ∧ chunk_text ('a' :: 'b' :: 'c' :: []) 1 1 = none := by
  refine ⟨chunkTextLoop_abc_none, ?_, ?_⟩
  · rintro (habs | ⟨fuel, hf⟩)
    · exact absurd habs (by decide)
    · rw [chunkTextLoop_abc_none fuel] at hf
      exact absurd hf (by decide)
  · unfold chunk_text
    rw [if_neg (by decide)]
    exact chunkTextLoop_abc_none _

/-- C5: `chunk_text` produces sliding windows — the empty text yields
`[]`; a text no longer than `chunk_size` yields exactly `[text]`; for
`overlap < chunk_size` the output is the sliding-window sequence whose
start advances by `chunk_size - overlap`, the final window clipped to
the end of the text (`specChunks`); and the example
`chunk_text "abcdefghij" 4 1 = ["abcd", "defg", "ghij"]` holds. -/
theorem chunk_text_sliding_windows :
    (∀ cs ov : Int, chunk_text [] cs ov = some [])
    ∧ (∀ (text : List Char) (cs ov : Int), text ≠ [] → (text.length : Int) ≤ cs →
        chunk_text text cs ov = some [text])
    ∧ (∀ (text : List Char) (cs ov : Nat), 0 < cs → ov < cs →
        chunk_text text (cs : Int) (ov : Int) = some (specChunks text cs ov))
    ∧ chunk_text "abcdefghij".toList 4 1
        = some ["abcd".toList, "defg".toList, "ghij".toList] := by
  refine ⟨?_, ?_, ?_, by decide⟩
  · intro cs ov
    unfold chunk_text
    rw [if_pos rfl]
  · intro text cs ov hne hlen
    have hl : 0 < text.length := List.length_pos.mpr hne
    have h0 : (0 : Int) < (text.length : Int) := by exact_mod_cast hl
    have hmin : min ((0 : Int) + cs) (text.length : Int) = (text.length : Int) := by omega
    have hps : pySlice text 0 (text.length : Int) = text := by
      have := pySlice_nat text 0 text.length (by omega) (le_refl _)
      simpa using this
    unfold chunk_text
    rw [if_neg hne]
    simp only [chunkTextLoop, if_pos h0, hmin, if_pos rfl, hps]
    simp
  · intro text cs ov hcs hov
    exact chunk_text_eq_specChunks text cs ov hcs hov

/-- Closed instance of `chunk_text_sliding_windows`: the whole-text case
at "ab" with chunk size 5, and the window case at "abcdefghij" with
chunk size 4 and overlap 1. -/
theorem chunk_text_sliding_windows_witness :
    chunk_text ('a' :: 'b' :: []) 5 2 = some [('a' :: 'b' :: [])]
    ∧ chunk_text "abcdefghij".toList 4 1 = some (specChunks "abcdefghij".toList 4 1) :=
  ⟨chunk_text_sliding_windows.2.1 ('a' :: 'b' :: []) 5 2 (by decide) (by decide),
   chunk_text_sliding_windows.2.2.1 "abcdefghij".toList 4 1 (by decide) (by decide)⟩

/-- C10: round-trip reconstruction — for a non-empty text and
`0 ≤ overlap < chunk_size`, the produced chunks cover the input
losslessly: adjacent chunks share exactly `overlap` characters at each
boundary (`adjShare`), and the first chunk followed by every later
chunk stripped of its first `overlap` characters rebuilds the original
text (`glue`). -/
theorem chunk_text_roundtrip (text : List Char) (cs ov : Nat)
    (hne : text ≠ []) (hcs : 0 < cs) (hov : ov < cs) :
    ∃ ws, chunk_text text (cs : Int) (ov : Int) = some ws
      ∧ adjShare ov ws ∧ glue ov ws = text := by
  refine ⟨specChunks text cs ov, chunk_text_eq_specChunks text cs ov hcs hov, ?_, ?_⟩
  · unfold specChunks
    rw [if_neg hne]
    exact specWindows_adjShare cs ov hcs hov text (text.length + 1) 0
      (List.length_pos.mpr hne) (by omega)
  · unfold specChunks
    rw [if_neg hne]
    have := specWindows_glue cs ov hcs hov text (text.length + 1) 0
      (List.length_pos.mpr hne) (by omega)
    simpa using this

/-- Closed instance of `chunk_text_roundtrip` at "abcde" with chunk
size 3 and overlap 2. -/
theorem chunk_text_roundtrip_witness :
    chunk_text "abcde".toList 3 2 = some ["abc".toList, "bcd".toList, "cde".toList]
    ∧ adjShare 2 ["abc".toList, "bcd".toList, "cde".toList]
    ∧ glue 2 ["abc".toList, "bcd".toList, "cde".toList] = "abcde".toList := by
  obtain ⟨ws, h1, h2, h3⟩ := chunk_text_roundtrip "abcde".toList 3 2
    (by decide) (by decide) (by decide)
  have hc : chunk_text "abcde".toList 3 2 = some ["abc".toList, "bcd".toList, "cde".toList] := by
    decide
  have hws : ws = ["abc".toList, "bcd".toList, "cde".toList] := by
    norm_cast at h1
    rw [hc] at h1
    exact (Option.some.inj h1).symm
  refine ⟨hc, ?_, ?_⟩
  · rw [← hws]; exact h2
  · rw [← hws]; exact h3


/-! ### Router lemmas -/

lemma lookup_registry_spec (m : String) (spec : ModelSpec)
    (h : MODEL_REGISTRY.lookup m = some spec) :
    spec.name = m
      ∧ (spec.provider = "openai" ∨ spec.provider = "gemini" ∨ spec.provider = "grok") := by
  unfold MODEL_REGISTRY at h
  simp only [List.lookup] at h
  repeat' split at h
  all_goals try simp_all
  all_goals rw [← h]
  all_goals exact ⟨rfl, by decide⟩

lemma invoke_model_trace (call : ProviderCall) (m : String) :
    (invoke_model call m).2 = if inRegistry m then [m] else [] := by
  by_cases hr : inRegistry m
  · rw [if_pos hr]
    obtain ⟨spec, h⟩ := Option.isSome_iff_exists.mp hr
    obtain ⟨hname, hprov⟩ := lookup_registry_spec m spec h
    unfold invoke_model
    rw [h]
    simp only [if_pos hprov]
    cases hc : call spec.name <;> simp [hname]
  · rw [if_neg hr]
    unfold inRegistry at hr
    have h : MODEL_REGISTRY.lookup m = none := Option.not_isSome_iff_eq_none.mp hr
    unfold invoke_model
    rw [h]

/-- C4: with `preferred_models` absent, `select_models` never returns an
empty list (the registry and the "default" preset being the non-empty
tables above), and whenever the deduplicated candidate list comes out
empty it returns the "default" preset verbatim. -/
theorem select_models_never_empty (task strategy : Option String) :
    select_models task strategy none ≠ []
    ∧ (uniqueModels (selectBase task strategy) = [] →
        select_models task strategy none = lookupD STRATEGY_PRESETS "default") := by
  constructor
  · unfold select_models
    rw [if_neg (by simp)]
    by_cases h : uniqueModels (selectBase task strategy) = []
    · rw [if_pos h]
      decide
    · rw [if_neg h]
      exact h
  · intro h
    unfold select_models
    rw [if_neg (by simp), if_pos h]

/-- Closed instance of `select_models_never_empty`: an unknown task with
an unknown strategy empties the candidate list, and the "default"
preset is returned. -/
theorem select_models_never_empty_witness :
    select_models (some "nope") (some "nope") none ≠ []
    ∧ select_models (some "nope") (some "nope") none = lookupD STRATEGY_PRESETS "default" :=
  ⟨(select_models_never_empty (some "nope") (some "nope")).1,
   (select_models_never_empty (some "nope") (some "nope")).2 (by decide)⟩

/-- C8 is false on the code: with task "chapter", the unknown strategy
"balanced" contributes nothing (the code falls back to the "default"
preset only when the strategy is `None` or `""`, not when it is an
unknown label), so the result differs from passing no strategy at
all. -/
theorem select_models_unknown_strategy_counterexample :
    select_models (some "chapter") (some "balanced") none = ["gpt-5.1", "gemini-3.0-pro"]
    ∧ select_models (some "chapter") none none
        = ["gpt-5.1", "gemini-3.0-pro", "gpt-5-mini"]
    ∧ select_models (some "chapter") (some "balanced") none
        ≠ select_models (some "chapter") none none := by
  exact ⟨by decide, by decide, by decide⟩

/-- C8 amended: with `preferred_models` absent and a non-empty strategy
label that is not a preset key, the strategy contributes the empty list
(not the "default" preset, which is used only when the strategy is
unset or the empty string): the result is the deduplicated task default
list, or the "default" preset when that is empty. -/
theorem select_models_unknown_strategy (task : Option String) (s : String)
    (hne : s ≠ "") (hun : STRATEGY_PRESETS.lookup s = none) :
    select_models task (some s) none
      = if uniqueModels (lookupD TASK_DEFAULTS (task.getD "")) = []
        then lookupD STRATEGY_PRESETS "default"
        else uniqueModels (lookupD TASK_DEFAULTS (task.getD "")) := by
  have hkey : strategyKey (some s) = s := by
    simp [strategyKey, hne]
  have hpre : lookupD STRATEGY_PRESETS (strategyKey (some s)) = [] := by
    rw [hkey]
    simp [lookupD, hun]
  have hbase : selectBase task (some s) = lookupD TASK_DEFAULTS (task.getD "") := by
    unfold selectBase
    by_cases ht : task = some "short"
    · rw [if_pos ht, hpre, ht]
      simp
    · rw [if_neg ht, hpre]
      simp
  unfold select_models
  rw [if_neg (by simp), hbase]

/-- Closed instance of `select_models_unknown_strategy` at task
"chapter" with unknown strategy "balanced". -/
theorem select_models_unknown_strategy_witness :
    select_models (some "chapter") (some "balanced") none
      = if uniqueModels (lookupD TASK_DEFAULTS "chapter") = []
        then lookupD STRATEGY_PRESETS "default"
        else uniqueModels (lookupD TASK_DEFAULTS "chapter") :=
  select_models_unknown_strategy (some "chapter") "balanced" (by decide) (by decide)

/-- C9: for every strategy, task "short" puts the "short" task defaults
`["gpt-5-mini", "gemini-1.5-flash", "gpt-5.1"]` first, ahead of any
strategy contribution; in particular strategy "creative" appends only
"grok-4.1" after them. -/
theorem select_models_short_task_first :
    (∀ strategy, ∃ rest,
        select_models (some "short") strategy none
          = "gpt-5-mini" :: "gemini-1.5-flash" :: "gpt-5.1" :: rest)
    ∧ select_models (some "short") (some "creative") none
        = ["gpt-5-mini", "gemini-1.5-flash", "gpt-5.1", "grok-4.1"] := by
  constructor
  · intro strategy
    have hbase : selectBase (some "short") strategy
        = "gpt-5-mini" :: "gemini-1.5-flash" :: "gpt-5.1"
            :: lookupD STRATEGY_PRESETS (strategyKey strategy) := by
      unfold selectBase
      rw [if_pos rfl]
      rfl
    have hu : uniqueModels (selectBase (some "short") strategy)
        = "gpt-5-mini" :: "gemini-1.5-flash" :: "gpt-5.1"
            :: uniqueGo ["gpt-5.1", "gemini-1.5-flash", "gpt-5-mini"]
                (lookupD STRATEGY_PRESETS (strategyKey strategy)) := by
      rw [hbase]
      unfold uniqueModels
      rw [uniqueGo, if_pos (by decide), uniqueGo, if_pos (by decide),
        uniqueGo, if_pos (by decide)]
    refine ⟨uniqueGo ["gpt-5.1", "gemini-1.5-flash", "gpt-5-mini"]
      (lookupD STRATEGY_PRESETS (strategyKey strategy)), ?_⟩
    unfold select_models
    rw [if_neg (by simp), if_neg (by rw [hu]; exact fun hcontra => by cases hcontra), hu]
  · decide

lemma standardLoop_cons_ok (call : ProviderCall) (afb : Bool) (m : String)
    (rest : List String) (le : Option PyExc) (res : InvokeResult)
    (h : (invoke_model call m).1 = .ok res) :
    standardLoop call afb (m :: rest) le = (.ok res, (invoke_model call m).2) := by
  simp only [standardLoop, h]

lemma standardLoop_no_fallback (call : ProviderCall) (m : String)
    (rest : List String) (exc : PyExc) (le : Option PyExc)
    (h : (invoke_model call m).1 = .error exc) :
    standardLoop call false (m :: rest) le = (.error exc, (invoke_model call m).2) := by
  simp only [standardLoop, h]
  simp

lemma standardLoop_cons_error (call : ProviderCall) (m : String)
    (rest : List String) (exc : PyExc) (le : Option PyExc)
    (h : (invoke_model call m).1 = .error exc) :
    standardLoop call true (m :: rest) le
      = ((standardLoop call true rest (some exc)).1,
         (invoke_model call m).2 ++ (standardLoop call true rest (some exc)).2) := by
  simp only [standardLoop, h]
  simp [ite_self]

lemma generate_text_standard (call : ProviderCall) (task strategy : Option String)
    (preferred : Option (List String)) (afb : Bool) (model : Option String) :
    generate_text call task strategy preferred none afb model
      = ((match (standardLoop call afb (genCandidates task strategy preferred model) none).1 with
          | .ok r => .ok (.single r)
          | .error e => .error e),
         (standardLoop call afb (genCandidates task strategy preferred model) none).2) := by
  unfold generate_text
  rw [if_neg (by simp)]

lemma standardLoop_all_fail (call : ProviderCall) :
    ∀ (init : List String) (m : String) (e : PyExc) (le : Option PyExc),
      (∀ x ∈ init, ∃ ex, (invoke_model call x).1 = .error ex) →
      (invoke_model call m).1 = .error e →
      (standardLoop call true (init ++ [m]) le).1 = .error e := by
  intro init
  induction init with
  | nil =>
    intro m e le _ hm
    rw [List.nil_append, standardLoop_cons_error call m [] e le hm]
    rfl
  | cons m0 init ih =>
    intro m e le hinit hm
    obtain ⟨ex0, hx0⟩ := hinit m0 (by simp)
    rw [List.cons_append, standardLoop_cons_error call m0 (init ++ [m]) ex0 le hx0]
    exact ih m e (some ex0) (fun x hx => hinit x (by simp [hx])) hm

/-- C1: standard mode (no `compare_models`) — (a) with
`allow_fallback=False`, the failure of the first candidate makes
`generate_text` fail immediately with that exception, invoking only that
candidate; (b) with `allow_fallback=True` and every candidate failing,
the exception of the last candidate is propagated; (c) an empty
candidate list raises `ModelUnavailable` with no prior exception. -/
theorem generate_text_standard_error_propagation (call : ProviderCall)
    (task strategy : Option String) (preferred : Option (List String))
    (model : Option String) :
    (∀ m rest e, genCandidates task strategy preferred model = m :: rest →
        (invoke_model call m).1 = .error e →
        generate_text call task strategy preferred none false model
          = (.error e, (invoke_model call m).2))
    ∧ (∀ init m e, genCandidates task strategy preferred model = init ++ [m] →
        (∀ x ∈ init, ∃ ex, (invoke_model call x).1 = .error ex) →
        (invoke_model call m).1 = .error e →
        (generate_text call task strategy preferred none true model).1 = .error e)
    ∧ (∀ afb, genCandidates task strategy preferred model = [] →
        generate_text call task strategy preferred none afb model
          = (.error (.modelUnavailable "No model available to fulfill the request"), [])) := by
  refine ⟨?_, ?_, ?_⟩
  · intro m rest e hc he
    rw [generate_text_standard, hc, standardLoop_no_fallback call m rest e none he]
  · intro init m e hc hinit he
    rw [generate_text_standard, hc]
    have := standardLoop_all_fail call init m e none hinit he
    rw [this]
  · intro afb hc
    rw [generate_text_standard, hc]
    rfl

/-- Closed instance of `generate_text_standard_error_propagation`:
(a) at a failing sole candidate with fallback disallowed, (b) at a
two-candidate list that fails throughout, (c) at a candidate list that
filters to empty. -/
theorem generate_text_standard_error_propagation_witness :
    generate_text callFailMini none none (some ["gpt-5-mini"]) none false none
      = (.error (.providerFailure "mini down"), ["gpt-5-mini"])
    ∧ (generate_text callAllFail none none (some ["gpt-5-mini", "gpt-5.1"]) none true none).1
        = .error (.providerFailure "down")
    ∧ generate_text callAllFail none none (some ["zzz"]) none true none
        = (.error (.modelUnavailable "No model available to fulfill the request"), []) := by
  refine ⟨?_, ?_, ?_⟩
  · exact ((generate_text_standard_error_propagation callFailMini none none
      (some ["gpt-5-mini"]) none).1 "gpt-5-mini" [] (.providerFailure "mini down")
      (by decide) (by decide)).trans (by decide)
  · exact (generate_text_standard_error_propagation callAllFail none none
      (some ["gpt-5-mini", "gpt-5.1"]) none).2.1 ["gpt-5-mini"] "gpt-5.1"
      (.providerFailure "down") (by decide)
      (by
        intro x hx
        simp only [List.mem_singleton] at hx
        subst hx
        exact ⟨.providerFailure "down", by decide⟩)
      (by decide)
  · exact (generate_text_standard_error_propagation callAllFail none none
      (some ["zzz"]) none).2.2 true (by decide)

/-- C2 is false on the code: with `allow_fallback=True`, candidates
`["gpt-5-mini", "gemini-1.5-flash"]` and "gpt-5-mini" failing, the
claim says the router continues to "gemini-1.5-flash" only if "gpt-5.1"
still appears later in the remaining list — it does not appear there,
yet the router does continue and returns the second candidate's result
(the `continue` guard is a no-op: the `except` block falls through to
the next loop iteration either way). -/
theorem standard_fallback_counterexample :
    generate_text callFailMini none none (some ["gpt-5-mini", "gemini-1.5-flash"]) none true none
      = (.ok (.single { text := "text from gemini-1.5-flash",
                        model_used := "gemini-1.5-flash",
                        provider := "gemini",
                        from_fallback := false }),
         ["gpt-5-mini", "gemini-1.5-flash"])
    ∧ "gpt-5.1" ∉ (["gemini-1.5-flash"] : List String)
    ∧ (invoke_model callFailMini "gpt-5-mini").1 = .error (.providerFailure "mini down") := by
  exact ⟨by decide, by decide, by decide⟩

/-- C2 amended: with `allow_fallback=True` the router continues to the
next candidate after every failure, whether or not "gpt-5.1" appears
later in the remaining list; consequently, when "gpt-5.1" is among the
candidates and the call ultimately fails, "gpt-5.1" was invoked before
giving up. -/
theorem standard_fallback_always_continues :
    (∀ (call : ProviderCall) (m : String) (rest : List String) (exc : PyExc)
        (le : Option PyExc),
        (invoke_model call m).1 = .error exc →
        standardLoop call true (m :: rest) le
          = ((standardLoop call true rest (some exc)).1,
             (invoke_model call m).2 ++ (standardLoop call true rest (some exc)).2))
    ∧ (∀ (call : ProviderCall) (task strategy : Option String)
          (preferred : Option (List String)) (model : Option String) (e : PyExc),
        "gpt-5.1" ∈ genCandidates task strategy preferred model →
        (generate_text call task strategy preferred none true model).1 = .error e →
        "gpt-5.1" ∈ (generate_text call task strategy preferred none true model).2) := by
  have key : ∀ (call : ProviderCall) (ms : List String) (le : Option PyExc) (e : PyExc),
      "gpt-5.1" ∈ ms → (standardLoop call true ms le).1 = .error e →
      "gpt-5.1" ∈ (standardLoop call true ms le).2 := by
    intro call ms
    induction ms with
    | nil =>
      intro le e hmem _
      simp at hmem
    | cons m rest ih =>
      intro le e hmem herr
      cases h0 : (invoke_model call m).1 with
      | ok res =>
        rw [standardLoop_cons_ok call true m rest le res h0] at herr
        exact absurd herr (by simp)
      | error exc =>
        rw [standardLoop_cons_error call m rest exc le h0] at herr ⊢
        by_cases hm : m = "gpt-5.1"
        · subst hm
          have ht : (invoke_model call "gpt-5.1").2 = ["gpt-5.1"] := by
            rw [invoke_model_trace, if_pos (by decide)]
          rw [ht]
          simp
        · have hrest : "gpt-5.1" ∈ rest := by
            rcases List.mem_cons.mp hmem with h | h
            · exact absurd h.symm hm
            · exact h
          exact List.mem_append.mpr (Or.inr (ih (some exc) e hrest herr))
  refine ⟨fun call m rest exc le h => standardLoop_cons_error call m rest exc le h, ?_⟩
  intro call task strategy preferred model e hmem herr
  rw [generate_text_standard] at herr ⊢
  cases h1 : (standardLoop call true (genCandidates task strategy preferred model) none).1 with
  | ok res =>
    rw [h1] at herr
    exact absurd herr (by simp)
  | error e1 =>
    have := key call (genCandidates task strategy preferred model) none e1 hmem h1
    exact this

/-- Closed instance of `standard_fallback_always_continues`: the loop
continues past a failing "gpt-5-mini" with no "gpt-5.1" later, and an
exhausted call with "gpt-5.1" among the candidates has invoked it. -/
theorem standard_fallback_always_continues_witness :
    standardLoop callAllFail true ["gpt-5-mini", "gemini-1.5-flash"] none
      = ((standardLoop callAllFail true ["gemini-1.5-flash"] (some (.providerFailure "down"))).1,
         (invoke_model callAllFail "gpt-5-mini").2
           ++ (standardLoop callAllFail true ["gemini-1.5-flash"]
                (some (.providerFailure "down"))).2)
    ∧ "gpt-5.1" ∈ (generate_text callAllFail none none (some ["gpt-5-mini", "gpt-5.1"])
        none true none).2 :=
  ⟨standard_fallback_always_continues.1 callAllFail "gpt-5-mini" ["gemini-1.5-flash"]
      (.providerFailure "down") none (by decide),
   standard_fallback_always_continues.2 callAllFail none none
      (some ["gpt-5-mini", "gpt-5.1"]) none (.providerFailure "down")
      (by decide) (by decide)⟩

lemma compareLoop_forall2 (call : ProviderCall) (afb : Bool) :
    ∀ ms, List.Forall₂ (slotSpec call afb) ms (compareLoop call afb ms).1 := by
  intro ms
  induction ms with
  | nil => simp [compareLoop]
  | cons m rest ih =>
    cases h0 : (invoke_model call m).1 with
    | ok res =>
      simp only [compareLoop, h0]
      exact List.Forall₂.cons (by simp only [slotSpec, h0]) ih
    | error exc =>
      by_cases hc2 : afb ∧ m ≠ "gpt-5.1"
      · cases h1 : (invoke_model call "gpt-5.1").1 with
        | ok fb =>
          simp only [compareLoop, h0, if_pos hc2, h1]
          exact List.Forall₂.cons (by simp only [slotSpec, h0, if_pos hc2, h1]) ih
        | error e1 =>
          simp only [compareLoop, h0, if_pos hc2, h1]
          exact List.Forall₂.cons (by simp only [slotSpec, h0, if_pos hc2, h1]) ih
      · simp only [compareLoop, h0, if_neg hc2]
        exact List.Forall₂.cons (by simp only [slotSpec, h0, if_neg hc2]) ih

/-- C6: compare mode — a non-empty `compare_models` list makes
`generate_text` return (never raise) one entry per requested model in
request order (`List.Forall₂` pairs them positionally, so the lengths
agree), each entry governed by the decision table `slotSpec`: a success
keeps its result, a failure retries "gpt-5.1" once when fallback is
allowed and the failed model is not "gpt-5.1" (a successful retry
marked `from_fallback`), and otherwise the slot records an error entry
with the message and the failed model. -/
theorem generate_text_compare_per_slot (call : ProviderCall) (afb : Bool)
    (task strategy : Option String) (preferred : Option (List String))
    (model : Option String) (ms : List String) (h : ms ≠ []) :
    generate_text call task strategy preferred (some ms) afb model
      = (.ok (.compare (compareLoop call afb ms).1), (compareLoop call afb ms).2)
    ∧ List.Forall₂ (slotSpec call afb) ms (compareLoop call afb ms).1 := by
  constructor
  · unfold generate_text
    rw [if_pos (by simpa using h)]
    rfl
  · exact compareLoop_forall2 call afb ms

/-- Closed instance of `generate_text_compare_per_slot` at two models,
the first failing, fallback allowed. -/
theorem generate_text_compare_per_slot_witness :
    generate_text callFailMini none none none
        (some ["gpt-5-mini", "gemini-1.5-flash"]) true none
      = (.ok (.compare (compareLoop callFailMini true
            ["gpt-5-mini", "gemini-1.5-flash"]).1),
         (compareLoop callFailMini true ["gpt-5-mini", "gemini-1.5-flash"]).2)
    ∧ List.Forall₂ (slotSpec callFailMini true) ["gpt-5-mini", "gemini-1.5-flash"]
        (compareLoop callFailMini true ["gpt-5-mini", "gemini-1.5-flash"]).1 :=
  generate_text_compare_per_slot callFailMini true none none none none
    ["gpt-5-mini", "gemini-1.5-flash"] (by decide)

/-- C7 is false on the code: duplicates in `preferred_models` pass
through unfiltered in standard mode, so "gpt-5-mini" is invoked twice
in one call; and in compare mode even a duplicate-free request list
invokes "gpt-5.1" once per failing slot, here twice. -/
theorem duplicate_invocation_counterexample :
    (generate_text callAllFail none none (some ["gpt-5-mini", "gpt-5-mini"]) none true none).2
      = ["gpt-5-mini", "gpt-5-mini"]
    ∧ ((generate_text callAllFail none none (some ["gpt-5-mini", "gpt-5-mini"])
          none true none).2.count "gpt-5-mini" = 2)
    ∧ (generate_text callAllFail none none none (some ["gpt-5-mini", "gpt-5.1"]) true none).2
      = ["gpt-5-mini", "gpt-5.1", "gpt-5.1"] := by
  exact ⟨by decide, by decide, by decide⟩

lemma uniqueGo_not_mem_seen :
    ∀ (l seen : List String) (x : String), x ∈ uniqueGo seen l → x ∉ seen := by
  intro l
  induction l with
  | nil =>
    intro seen x hx
    simp [uniqueGo] at hx
  | cons item rest ih =>
    intro seen x hx
    by_cases hc : item ∉ seen ∧ inRegistry item
    · rw [uniqueGo, if_pos hc] at hx
      rcases List.mem_cons.mp hx with h | h
      · subst h
        exact hc.1
      · intro hxs
        exact (ih (item :: seen) x h) (List.mem_cons.mpr (Or.inr hxs))
    · rw [uniqueGo, if_neg hc] at hx
      exact ih seen x hx

lemma uniqueGo_nodup : ∀ (l seen : List String), (uniqueGo seen l).Nodup := by
  intro l
  induction l with
  | nil => intro seen; simp [uniqueGo]
  | cons item rest ih =>
    intro seen
    by_cases hc : item ∉ seen ∧ inRegistry item
    · rw [uniqueGo, if_pos hc]
      refine List.nodup_cons.mpr ⟨?_, ih (item :: seen)⟩
      intro hmem
      exact (uniqueGo_not_mem_seen rest (item :: seen) item hmem) (by simp)
    · rw [uniqueGo, if_neg hc]
      exact ih seen

lemma standardLoop_trace_filter (call : ProviderCall) (afb : Bool) :
    ∀ (ms : List String) (le : Option PyExc),
      ∃ pre suf, ms = pre ++ suf
        ∧ (standardLoop call afb ms le).2
            = pre.filter (fun x => decide (inRegistry x)) := by
  intro ms
  induction ms with
  | nil => intro le; exact ⟨[], [], rfl, rfl⟩
  | cons m rest ih =>
    intro le
    cases h0 : (invoke_model call m).1 with
    | ok res =>
      refine ⟨[m], rest, rfl, ?_⟩
      rw [standardLoop_cons_ok call afb m rest le res h0, invoke_model_trace]
      by_cases hr : inRegistry m <;> simp [hr, List.filter]
    | error exc =>
      cases afb with
      | false =>
        refine ⟨[m], rest, rfl, ?_⟩
        rw [standardLoop_no_fallback call m rest exc le h0, invoke_model_trace]
        by_cases hr : inRegistry m <;> simp [hr, List.filter]
      | true =>
        obtain ⟨pre, suf, hsplit, htr⟩ := ih (some exc)
        refine ⟨m :: pre, suf, by rw [hsplit, List.cons_append], ?_⟩
        rw [standardLoop_cons_error call m rest exc le h0]
        show (invoke_model call m).2 ++ (standardLoop call true rest (some exc)).2
            = List.filter (fun x => decide (inRegistry x)) (m :: pre)
        rw [invoke_model_trace, htr]
        by_cases hr : inRegistry m <;> simp [hr, List.filter_cons]

/-- C7 amended: within one standard-mode call the invoked models are a
registry-filtered prefix of the candidate list, so no model is invoked
twice whenever the candidate list is duplicate-free — which is always
the case when `preferred_models` is absent, since `select_models` and
the `model`-prepending path deduplicate via `_unique`.  (With duplicate
`preferred_models`, or in compare mode, a model can be invoked more
than once — see `duplicate_invocation_counterexample`.) -/
theorem standard_mode_no_duplicate_invocations :
    (∀ (call : ProviderCall) (afb : Bool) (ms : List String) (le : Option PyExc),
        ∃ pre suf, ms = pre ++ suf
          ∧ (standardLoop call afb ms le).2
              = pre.filter (fun x => decide (inRegistry x)))
    ∧ (∀ (call : ProviderCall) (afb : Bool) (task strategy : Option String)
          (preferred : Option (List String)) (model : Option String),
        (genCandidates task strategy preferred model).Nodup →
        (generate_text call task strategy preferred none afb model).2.Nodup)
    ∧ (∀ (task strategy : Option String) (model : Option String),
        (genCandidates task strategy none model).Nodup) := by
  refine ⟨fun call afb ms le => standardLoop_trace_filter call afb ms le, ?_, ?_⟩
  · intro call afb task strategy preferred model hnd
    rw [generate_text_standard]
    show (standardLoop call afb (genCandidates task strategy preferred model) none).2.Nodup
    obtain ⟨pre, suf, hsplit, htr⟩ :=
      standardLoop_trace_filter call afb (genCandidates task strategy preferred model) none
    rw [htr]
    rw [hsplit] at hnd
    exact List.Nodup.filter _ (List.Nodup.sublist (List.sublist_append_left pre suf) hnd)
  · intro task strategy model
    unfold genCandidates
    by_cases hm : model.getD "" ≠ ""
    · rw [if_pos hm]
      exact uniqueGo_nodup _ []
    · rw [if_neg hm]
      unfold select_models
      rw [if_neg (by simp)]
      by_cases h : uniqueModels (selectBase task strategy) = []
      · rw [if_pos h]
        decide
      · rw [if_neg h]
        exact uniqueGo_nodup _ []

/-- Closed instance of `standard_mode_no_duplicate_invocations`: a
duplicate-free candidate list yields a duplicate-free invocation
trace. -/
theorem standard_mode_no_duplicate_invocations_witness :
    (genCandidates (some "chapter") none none none).Nodup
    ∧ (generate_text callAllFail (some "chapter") none none none true none).2.Nodup :=
  ⟨by decide,
   standard_mode_no_duplicate_invocations.2.1 callAllFail true (some "chapter")
     none none none (by decide)⟩

end AutoWriter
